import Mathlib

set_option maxHeartbeats 1000000

/-!
Shallow embedding of the session retrieval/caching/aggregation engine of the
codex_f1 repository (src/utils/data.py, circuit.py, driver.py, pitstop.py,
season.py, telemetry.py).

Conventions of the embedding:
* pandas timedeltas (LapTime) are modelled as integer microsecond counts,
  `Option Int`: `none` is NaT; `.dt.total_seconds()` divides by 10^6 into `Rat`
  (NaT maps to `none`, i.e. NaN in the dataframe).
* a pandas dataframe produced by a builder is modelled as the list of its rows.
* provider calls (fastf1.get_session(...).load(), requests.get) are modelled as
  explicit function parameters returning `Except`/`Option`, since they are
  external network effects; an exception is an `Except.error`.
* `functools.lru_cache` is modelled twice: sequentially as explicit state
  passing over an association-list cache (load_session_m), and, for the
  concurrency claims, as a small-step interleaving system of two callers of a
  single key (CState/step/run).  Instance ids (`Nat`) stand for the distinct
  Session objects created by distinct provider calls.
* `ThreadPoolExecutor.map` is modelled by `poolCollect`: tasks complete in an
  arbitrary order (a permutation of the task indices) and each completion
  writes its result into the slot of its originating index; the caller reads
  the slots in input order.  For the call sites that do not catch exceptions
  (`lap_time_chart`, `team_points_chart`), the caller-visible iteration of the
  results is `chart_fetch`, which propagates the first error in input order.
* pandas `groupby` key order (pandas sorts keys) is abstracted: groups are
  enumerated in order of last first occurrence via `List.dedup`; all facts
  stated below are independent of the order in which groups are listed.
-/

/-- One row of `session.laps` (fastf1 laps dataframe), restricted to the
columns this repository reads.  `lapTime` in microseconds, `none` = NaT. -/
structure Lap where
  driver : String
  lapNumber : Nat
  lapTime : Option Int
  stint : Option Nat
  compound : Option String
  pitOutTime : Option Int
deriving DecidableEq, Repr

/-- `timedelta.total_seconds()`: microseconds to seconds (exact rational in
place of the python float). -/
def totalSeconds (micros : Int) : Rat := mkRat micros 1000000

/-- `session.laps.pick_driver(drv)`: the rows whose Driver column is `drv`. -/
def pick_driver (laps : List Lap) (drv : String) : List Lap :=
  laps.filter (fun l => l.driver = drv)

/-- One row of the dataframe built by `lap_time_chart` in src/utils/driver.py
(columns LapNumber, LapTimeSeconds, Race); `lapTimeSeconds = none` is the NaN
produced by `.dt.total_seconds()` on a NaT lap time. -/
structure LapPoint where
  race : String
  lapNumber : Nat
  lapTimeSeconds : Option Rat
deriving DecidableEq, Repr

/-- The per-race rows of `lap_time_chart`: pick the driver, keep LapNumber,
convert LapTime to seconds (NaT stays absent, it is not dropped), tag the race. -/
def lapTimeRows (gp : String) (laps : List Lap) (drv : String) : List LapPoint :=
  (pick_driver laps drv).map (fun l => ⟨gp, l.lapNumber, l.lapTime.map totalSeconds⟩)

/-- The dataframe `df` of `lap_time_chart` (src/utils/driver.py lines 36-51):
concatenation of the per-race lap rows of the chosen driver. -/
def lap_time_chart_series (drv : String) (raceLaps : List (String × List Lap)) :
    List LapPoint :=
  (raceLaps.map (fun p => lapTimeRows p.1 p.2 drv)).flatten

/-- One row of the `stint_ranges` dataframe of `stint_chart`
(src/utils/pitstop.py lines 41-47). -/
structure StintRange where
  driver : String
  stint : Nat
  compound : String
  startLap : Nat
  endLap : Nat
deriving DecidableEq, Repr

/-- The groupby key of `stint_chart`: present only when both Stint and
Compound are present (`dropna(subset=["Stint", "Compound"])`). -/
def stintKey (l : Lap) : Option (String × Nat × String) :=
  match l.stint, l.compound with
  | some s, some c => some (l.driver, s, c)
  | _, _ => none

/-- Minimum of a list of lap numbers (`agg StartLap="min"`); 0 on the empty
list, which never arises for a groupby group. -/
def listMin : List Nat → Nat
  | [] => 0
  | x :: xs => xs.foldl min x

/-- Maximum of a list of lap numbers (`agg EndLap="max"`). -/
def listMax : List Nat → Nat
  | [] => 0
  | x :: xs => xs.foldl max x

/-- The `stint_ranges` dataframe of `stint_chart` (src/utils/pitstop.py lines
34-47): drop laps missing Stint or Compound, group by (Driver, Stint,
Compound), aggregate StartLap = min LapNumber, EndLap = max LapNumber, then
add 1 to EndLap. -/
def stint_chart_ranges (laps : List Lap) : List StintRange :=
  let stints := laps.filter (fun l => l.stint.isSome && l.compound.isSome)
  let keys := (stints.filterMap stintKey).dedup
  keys.map (fun k =>
    let nums := (stints.filter (fun l => stintKey l = some k)).map Lap.lapNumber
    ⟨k.1, k.2.1, k.2.2, listMin nums, listMax nums + 1⟩)

/-- The lap numbers of the group of `(d, s, c)` taken directly from the raw
laps (the specification-level description of a group). -/
def groupLapNumbers (laps : List Lap) (d : String) (s : Nat) (c : String) :
    List Nat :=
  (laps.filter (fun l => l.driver = d ∧ l.stint = some s ∧ l.compound = some c)).map
    Lap.lapNumber

/-- `laps.pick_driver(d).pick_fastest()` as used by
`compare_fastest_lap_telemetry`: the lap of minimum LapTime (NaT laps ignored,
first minimum wins, as pandas idxmin); `none` models the empty lap object whose
`.empty` the source tests. -/
def pick_fastest (laps : List Lap) : Option Lap :=
  match laps.filter (fun l => l.lapTime.isSome) with
  | [] => none
  | l :: ls => some (ls.foldl (fun a b =>
      if b.lapTime.getD 0 < a.lapTime.getD 0 then b else a) l)

/-- One sample of `lap.get_car_data().add_distance()` restricted to the
channels the telemetry tab reads. -/
structure TelemetrySample where
  distance : Rat
  speed : Rat
  throttle : Rat
  brake : Rat
deriving DecidableEq, Repr

/-- A loaded session as seen by `compare_fastest_lap_telemetry`: its laps and,
for each lap, the car-data telemetry of that lap. -/
structure TSession where
  laps : List Lap
  carData : Lap → List TelemetrySample

/-- A plotly figure, modelled as its list of traces; a trace is a name and the
list of (x, y) points. `go.Figure()` with no traces is `[]`. -/
def Figure : Type := List (String × List (Rat × Rat))

/-- `compare_fastest_lap_telemetry` (src/utils/telemetry.py): pick each
driver's fastest lap; if either is empty return three empty figures; otherwise
return the speed, throttle and brake figures, each overlaying the two drivers
against their own distance axes. -/
def compare_fastest_lap_telemetry (sess : TSession) (driver1 driver2 : String) :
    Figure × Figure × Figure :=
  match pick_fastest (pick_driver sess.laps driver1),
        pick_fastest (pick_driver sess.laps driver2) with
  | some lap1, some lap2 =>
      let tel1 := sess.carData lap1
      let tel2 := sess.carData lap2
      ([(driver1, tel1.map fun s => (s.distance, s.speed)),
        (driver2, tel2.map fun s => (s.distance, s.speed))],
       [(driver1, tel1.map fun s => (s.distance, s.throttle)),
        (driver2, tel2.map fun s => (s.distance, s.throttle))],
       [(driver1, tel1.map fun s => (s.distance, s.brake)),
        (driver2, tel2.map fun s => (s.distance, s.brake))])
  | _, _ => ([], [], [])

/-- One row of `session.results` restricted to the columns the claims read. -/
structure DriverResult where
  abbreviation : String
  teamName : String
  gridPosition : Option Nat
  finishPosition : Option Nat
  points : Rat
deriving DecidableEq, Repr

/-- A loaded session as seen by `team_points_chart`: only its `results`
dataframe, which fastf1 reports as possibly `None`. -/
structure RSession where
  results : Option (List DriverResult)
deriving DecidableEq, Repr

/-- `results.groupby("TeamName")["Points"].sum()`: one `(team, sum)` pair per
distinct team of the session (group listing order abstracted). -/
def groupSum (rows : List DriverResult) : List (String × Rat) :=
  ((rows.map DriverResult.teamName).dedup).map (fun t =>
    (t, ((rows.filter (fun r => r.teamName = t)).map DriverResult.points).sum))

/-- `team_points.get(team, 0.0)` on the accumulator dict. -/
def dictGet : List (String × Rat) → String → Rat
  | [], _ => 0
  | (k, v) :: rest, t => if k = t then v else dictGet rest t

/-- `team_points[team] = value` on the accumulator dict (python dicts update
in place, appending unseen keys). -/
def dictSet : List (String × Rat) → String → Rat → List (String × Rat)
  | [], k, v => [(k, v)]
  | (p :: rest), k, v =>
      if p.1 = k then (k, v) :: rest else p :: dictSet rest k v

/-- The inner loop of `team_points_chart`:
`team_points[team] = team_points.get(team, 0.0) + float(pts)`. -/
def addTeam (d : List (String × Rat)) (p : String × Rat) : List (String × Rat) :=
  dictSet d p.1 (dictGet d p.1 + p.2)

/-- One iteration of the session loop of `team_points_chart`
(src/utils/season.py lines 68-75): skip a session whose results are `None`,
otherwise fold its grouped per-team sums into the running dict. -/
def accumSession (d : List (String × Rat)) (s : RSession) : List (String × Rat) :=
  match s.results with
  | none => d
  | some rows => (groupSum rows).foldl addTeam d

/-- The `team_points` dict of `team_points_chart` after the session loop. -/
def team_points (sessions : List RSession) : List (String × Rat) :=
  sessions.foldl accumSession []

/-- The total points of team `t` contributed by one session (0 when results
are absent): the specification-level per-session sum. -/
def sessionTeamPoints (t : String) (s : RSession) : Rat :=
  match s.results with
  | none => 0
  | some rows => ((rows.filter (fun r => r.teamName = t)).map DriverResult.points).sum

/-- A provider failure (fastf1.FastF1Error / requests.RequestException /
generic network exception). -/
inductive ProviderErr where
  | network
  | unknownEvent
deriving DecidableEq, Repr

/-- The `_load` closure of `lap_time_boxplot` (src/utils/circuit.py lines
38-43): call the provider, catch the provider error, log, return None. -/
def boxplot_load {S : Type} (provider : Int → Except ProviderErr S) (y : Int) :
    Option S :=
  (provider y).toOption

/-- The fetch phase of `lap_time_boxplot` (lines 45-46): map `_load` over the
years; each year's slot carries its own result, failures as `none`. -/
def boxplot_fetch {S : Type} (provider : Int → Except ProviderErr S)
    (years : List Int) : List (Option S) :=
  years.map (boxplot_load provider)

/-- The fetch phase of `lap_time_chart` (src/utils/driver.py lines 37-40) and
`team_points_chart` (src/utils/season.py lines 65-66): `list(pool.map(...))`
with no exception handling — iterating the pool results re-raises the first
exception in input order, so the whole call aborts with it. -/
def chart_fetch {K S : Type} (provider : K → Except ProviderErr S) :
    List K → Except ProviderErr (List S)
  | [] => .ok []
  | g :: gs =>
      match provider g with
      | .error e => .error e
      | .ok s =>
          match chart_fetch provider gs with
          | .error e => .error e
          | .ok rest => .ok (s :: rest)

/-- The result computed by the worker of task `i`: look up the key at index
`i` and apply the fetch function. -/
def runTask {K S : Type} (keys : List K) (f : K → S) (i : Nat) : Option S :=
  (keys[i]?).map f

/-- `ThreadPoolExecutor.map` with an explicit completion order: tasks complete
in the order given by `order` (a permutation of the task indices); each
completion writes its result into the slot of its originating index, and the
caller reads the slots back in input order. -/
def poolCollect {K S : Type} (keys : List K) (f : K → S) (order : List Nat) :
    List (Option S) :=
  let slots : Nat → Option S :=
    order.foldl (fun acc i => fun j => if j = i then runTask keys f i else acc j)
      (fun _ => none)
  (List.range keys.length).map slots

/-- Lookup in the memo cache of `load_session` ((year, grand_prix, session)
keys). -/
def cacheLookup {K S : Type} [DecidableEq K] : List (K × S) → K → Option S
  | [], _ => none
  | (p :: rest), k => if p.1 = k then some p.2 else cacheLookup rest k

/-- `functools.lru_cache(maxsize=32)` bookkeeping on a hit: the entry moves to
the most-recently-used position. -/
def cacheHit {K S : Type} [DecidableEq K] (cache : List (K × S)) (k : K) (s : S) :
    List (K × S) :=
  (k, s) :: cache.filter (fun p => p.1 ≠ k)

/-- `functools.lru_cache(maxsize=32)` bookkeeping on a miss that returned:
insert at the most-recently-used position, evicting beyond 32 entries. -/
def cacheInsert {K S : Type} (cache : List (K × S)) (k : K) (s : S) :
    List (K × S) :=
  ((k, s) :: cache).take 32

/-- Sequential semantics of `load_session` (src/utils/data.py lines 13-18)
under its `lru_cache`: returns the result, the cache after the call, and the
number of provider calls made (0 on a hit, 1 on a miss).  A provider exception
propagates and, as `lru_cache` only stores returned values, leaves the cache
unchanged. -/
def load_session_m {K S : Type} [DecidableEq K]
    (provider : K → Except ProviderErr S) (cache : List (K × S)) (k : K) :
    Except ProviderErr S × List (K × S) × Nat :=
  match cacheLookup cache k with
  | some s => (.ok s, cacheHit cache k s, 0)
  | none =>
      match provider k with
      | .ok s => (.ok s, cacheInsert cache k s, 1)
      | .error e => (.error e, cache, 1)

/-- Program counter of one thread calling the `lru_cache`-wrapped
`load_session` on a fixed uncached key: it has not looked at the cache yet,
or it missed and is executing the provider fetch that will build instance
`v`, or it returned instance `r`. -/
inductive TPC where
  | start
  | fetching (v : Nat)
  | done (r : Nat)
deriving DecidableEq, Repr

/-- Shared state of two concurrent callers of `load_session` on one key:
the cache slot for that key, the number of provider calls performed so far,
and both thread states.  Instance ids number the distinct Session objects
built by distinct provider calls. -/
structure CState where
  cache : Option Nat
  fetches : Nat
  t1 : TPC
  t2 : TPC
deriving DecidableEq, Repr

/-- One atomic step of a thread: a starting thread reads the cache (hit:
return the cached instance; miss: begin a provider fetch building a fresh
instance); a fetching thread finishes, re-checks the cache, stores its
instance only when the key is still unpopulated (when another thread stored
first, the existing entry is kept), and returns its own instance either way;
a finished thread does nothing.  This is `lru_cache` semantics: the lookup
and the user-function call are not one atomic unit, and the post-call store
is skipped when the key is already present. -/
def stepT (cache : Option Nat) (fetches : Nat) : TPC → TPC × Option Nat × Nat
  | .start =>
      match cache with
      | some v => (.done v, cache, fetches)
      | none => (.fetching fetches, cache, fetches + 1)
  | .fetching v =>
      match cache with
      | some w => (.done v, some w, fetches)
      | none => (.done v, some v, fetches)
  | .done r => (.done r, cache, fetches)

/-- Interleaving step: `true` steps thread 1, `false` steps thread 2. -/
def step (s : CState) (who : Bool) : CState :=
  if who then
    let r := stepT s.cache s.fetches s.t1
    ⟨r.2.1, r.2.2, r.1, s.t2⟩
  else
    let r := stepT s.cache s.fetches s.t2
    ⟨r.2.1, r.2.2, s.t1, r.1⟩

/-- Run a schedule from the cold-cache initial state. -/
def run (sched : List Bool) : CState :=
  sched.foldl step ⟨none, 0, .start, .start⟩

/-- Threads that could still start a provider fetch. -/
def canFetch : TPC → Nat
  | .start => 1
  | _ => 0

/-- A calendar date (proleptic Gregorian), as `datetime.date`. -/
structure Date where
  year : Int
  month : Int
  day : Int
deriving DecidableEq, Repr

/-- Days since the epoch 1970-01-01 of a proleptic Gregorian date, the exact
day arithmetic of `datetime.date` subtraction. -/
def daysFromCivil (dt : Date) : Int :=
  let y : Int := if dt.month ≤ 2 then dt.year - 1 else dt.year
  let era : Int := Int.fdiv y 400
  let yoe : Int := y - era * 400
  let mp : Int := Int.emod (dt.month + 9) 12
  let doy : Int := Int.fdiv (153 * mp + 2) 5 + dt.day - 1
  let doe : Int := yoe * 365 + Int.fdiv yoe 4 - Int.fdiv yoe 100 + doy
  era * 146097 + doe - 719468

/-- The age formula of `driver_metadata`:
`(datetime.date(year, 12, 31) - dob).days // 365` (python `//` floors). -/
def pythonAge (year : Int) (dob : Date) : Int :=
  Int.fdiv (daysFromCivil ⟨year, 12, 31⟩ - daysFromCivil dob) 365

/-- The profile dict returned by `driver_metadata`. -/
structure Profile where
  name : Option String
  image : Option String
  age : Option Int
  nationality : Option String
  team : Option String
deriving DecidableEq, Repr

/-- What the primary source (first event of the season loaded through
fastf1, results row of the driver) yielded: `none` when the schedule call
failed, the schedule was empty, the session failed to load, results were
`None` or the driver had no row. -/
structure PrimaryData where
  name : Option String
  team : Option String
deriving DecidableEq, Repr

/-- The driver record of the ergast web service response: `none` at the
outer option when the request failed, timed out or was not ok. -/
structure ErgastDriver where
  nationality : Option String
  dateOfBirth : Option Date
  givenName : String
  familyName : String
deriving DecidableEq, Repr

/-- The three external sources consulted by `driver_metadata`.  The primary
row lookup and the ergast request are keyed by the driver abbreviation exactly
as passed; `wiki` maps a wikipedia page name to the thumbnail image url it
resolves; `none` models failure, timeout or absence. -/
structure Sources where
  primary : String → Option PrimaryData
  ergast : String → Option ErgastDriver
  wiki : String → Option String

/-- One entry of the compiled-in `_FALLBACK_DRIVERS` table; every entry of the
source table carries all five fields, the dob as a "%Y-%m-%d" string that
always parses. -/
structure FallbackDriver where
  name : String
  image : String
  dob : Date
  nationality : String
  team : String
deriving DecidableEq, Repr

/-- The module-level `_FALLBACK_DRIVERS` table of src/utils/driver.py. -/
def FALLBACK_DRIVERS : List (String × FallbackDriver) :=
  [("VER", ⟨"Max Verstappen",
      "https://upload.wikimedia.org/wikipedia/commons/3/3d/Max_Verstappen_2017_Malaysia_2.jpg",
      ⟨1997, 9, 30⟩, "Dutch", "Red Bull Racing"⟩),
   ("HAM", ⟨"Lewis Hamilton",
      "https://upload.wikimedia.org/wikipedia/commons/2/27/Lewis_Hamilton_2016_Malaysia_podium_1.jpg",
      ⟨1985, 1, 7⟩, "British", "Mercedes"⟩),
   ("ALO", ⟨"Fernando Alonso",
      "https://upload.wikimedia.org/wikipedia/commons/6/62/Fernando_Alonso_2016_Malaysia_podium_1.jpg",
      ⟨1981, 7, 29⟩, "Spanish", "Aston Martin"⟩),
   ("LEC", ⟨"Charles Leclerc",
      "https://upload.wikimedia.org/wikipedia/commons/9/9e/F1_2019_Monaco_GP_Sunday_QP_%2847019031094%29_%28cropped%29.jpg",
      ⟨1997, 10, 16⟩, "Monegasque", "Ferrari"⟩)]

/-- `_FALLBACK_DRIVERS.get(driver.upper())`. -/
def fbLookup : List (String × FallbackDriver) → String → Option FallbackDriver
  | [], _ => none
  | (p :: rest), k => if p.1 = k then some p.2 else fbLookup rest k

/-- Python `str.upper()` (character-wise uppercase; identical to Lean's
`String.toUpper`, written over the character list so the kernel can
evaluate it). -/
def strUpper (s : String) : String := ⟨s.toList.map Char.toUpper⟩

/-- Python `str.strip()`: drop leading and trailing whitespace. -/
def pyStrip (s : String) : String :=
  ⟨((s.toList.dropWhile Char.isWhitespace).reverse.dropWhile Char.isWhitespace).reverse⟩

/-- Python `name.replace(" ", "_")` for the wikipedia page name:
single-character pattern replacement is a character-wise map. -/
def spacesToUnderscores (s : String) : String :=
  ⟨s.toList.map (fun c => if c = ' ' then '_' else c)⟩

/-- The name after the primary and ergast steps: the primary name if any,
else, when ergast answered, `(givenName + " " + familyName).strip()` (which
is the empty string when both parts are empty, and an empty string is not
`None`). -/
def resolveName (src : Sources) (driver : String) : Option String :=
  match (src.primary driver).bind PrimaryData.name with
  | some n => some n
  | none => (src.ergast driver).map (fun d => pyStrip (d.givenName ++ " " ++ d.familyName))

/-- The image after the wikipedia step: consulted only when the name is
truthy (`if name and image is None`), keyed by the name with spaces replaced
by underscores. -/
def resolveImage (src : Sources) (driver : String) : Option String :=
  match resolveName src driver with
  | some n => if n = "" then none else src.wiki (spacesToUnderscores n)
  | none => none

/-- The age after the ergast step: derived from the ergast dob when one was
returned. -/
def resolvedAge (src : Sources) (year : Int) (driver : String) : Option Int :=
  ((src.ergast driver).bind ErgastDriver.dateOfBirth).map (pythonAge year)

/-- Fill a still-absent field from the fallback entry. -/
def fillField {α : Type} (o : Option α) (v : α) : Option α :=
  match o with
  | some x => some x
  | none => some v

/-- The fallback block of `driver_metadata` (src/utils/driver.py lines
243-256): each field still `None` is filled from the table entry; a missing
age is recomputed with the same formula from the fallback dob. -/
def applyFallback (year : Int) (p : Profile) : Option FallbackDriver → Profile
  | none => p
  | some fb =>
      ⟨fillField p.name fb.name, fillField p.image fb.image,
       fillField p.age (pythonAge year fb.dob),
       fillField p.nationality fb.nationality, fillField p.team fb.team⟩

/-- `driver_metadata` (src/utils/driver.py lines 163-264) with the external
sources explicit: primary (first-event results), ergast, wikipedia image,
then the static fallback keyed by the upper-cased abbreviation. -/
def driver_metadata (src : Sources) (year : Int) (driver : String) : Profile :=
  applyFallback year
    ⟨resolveName src driver, resolveImage src driver, resolvedAge src year driver,
     (src.ergast driver).bind ErgastDriver.nationality,
     (src.primary driver).bind PrimaryData.team⟩
    (fbLookup FALLBACK_DRIVERS (strUpper driver))

theorem filter_idem {α : Type} (p : α → Bool) (l : List α) :
    (l.filter p).filter p = l.filter p := by
  induction l with
  | nil => rfl
  | cons x xs ih => by_cases h : p x <;> simp [List.filter_cons, h, ih]

theorem foldl_min_le (xs : List Nat) (a : Nat) : xs.foldl min a ≤ a := by
  induction xs generalizing a with
  | nil => simp
  | cons x xs ih => exact le_trans (ih (min a x)) (min_le_left a x)

theorem foldl_min_le_mem (xs : List Nat) (a n : Nat) (hn : n ∈ xs) :
    xs.foldl min a ≤ n := by
  induction xs generalizing a with
  | nil => cases hn
  | cons x xs ih =>
    rcases List.mem_cons.mp hn with rfl | h
    · exact le_trans (foldl_min_le xs (min a n)) (min_le_right a n)
    · exact ih (min a x) h

theorem foldl_min_mem (xs : List Nat) (a : Nat) :
    xs.foldl min a = a ∨ xs.foldl min a ∈ xs := by
  induction xs generalizing a with
  | nil => left; rfl
  | cons x xs ih =>
    rcases ih (min a x) with h | h
    · rw [List.foldl_cons, h]
      rcases min_cases a x with ⟨h2, _⟩ | ⟨h2, _⟩
      · left; exact h2
      · right; rw [h2]; exact List.mem_cons_self x xs
    · right; exact List.mem_cons_of_mem x h

theorem le_foldl_max (xs : List Nat) (a : Nat) : a ≤ xs.foldl max a := by
  induction xs generalizing a with
  | nil => simp
  | cons x xs ih => exact le_trans (le_max_left a x) (ih (max a x))

theorem mem_le_foldl_max (xs : List Nat) (a n : Nat) (hn : n ∈ xs) :
    n ≤ xs.foldl max a := by
  induction xs generalizing a with
  | nil => cases hn
  | cons x xs ih =>
    rcases List.mem_cons.mp hn with rfl | h
    · exact le_trans (le_max_right a n) (le_foldl_max xs (max a n))
    · exact ih (max a x) h

theorem foldl_max_mem (xs : List Nat) (a : Nat) :
    xs.foldl max a = a ∨ xs.foldl max a ∈ xs := by
  induction xs generalizing a with
  | nil => left; rfl
  | cons x xs ih =>
    rcases ih (max a x) with h | h
    · rw [List.foldl_cons, h]
      rcases max_cases a x with ⟨h2, _⟩ | ⟨h2, _⟩
      · left; exact h2
      · right; rw [h2]; exact List.mem_cons_self x xs
    · right; exact List.mem_cons_of_mem x h

theorem listMin_mem (nums : List Nat) (h : nums ≠ []) : listMin nums ∈ nums := by
  cases nums with
  | nil => exact absurd rfl h
  | cons x xs =>
    rcases foldl_min_mem xs x with h2 | h2
    · rw [listMin, h2]; exact List.mem_cons_self x xs
    · exact List.mem_cons_of_mem x h2

theorem listMin_le (nums : List Nat) (n : Nat) (hn : n ∈ nums) :
    listMin nums ≤ n := by
  cases nums with
  | nil => cases hn
  | cons x xs =>
    rcases List.mem_cons.mp hn with rfl | h
    · exact foldl_min_le xs n
    · exact foldl_min_le_mem xs x n h

theorem listMax_mem (nums : List Nat) (h : nums ≠ []) : listMax nums ∈ nums := by
  cases nums with
  | nil => exact absurd rfl h
  | cons x xs =>
    rcases foldl_max_mem xs x with h2 | h2
    · rw [listMax, h2]; exact List.mem_cons_self x xs
    · exact List.mem_cons_of_mem x h2

theorem le_listMax (nums : List Nat) (n : Nat) (hn : n ∈ nums) :
    n ≤ listMax nums := by
  cases nums with
  | nil => cases hn
  | cons x xs =>
    rcases List.mem_cons.mp hn with rfl | h
    · exact le_foldl_max xs n
    · exact mem_le_foldl_max xs x n h

theorem stintKey_eq_some (l : Lap) (d : String) (s : Nat) (c : String) :
    stintKey l = some (d, s, c) ↔
      l.driver = d ∧ l.stint = some s ∧ l.compound = some c := by
  rcases l with ⟨ld, ln, lt, lst, lc, lp⟩
  cases lst <;> cases lc <;> simp [stintKey]

theorem filter_key_valid (laps : List Lap) (k : String × Nat × String) :
    (laps.filter (fun l => l.stint.isSome && l.compound.isSome)).filter
        (fun l => stintKey l = some k) =
      laps.filter (fun l => stintKey l = some k) := by
  induction laps with
  | nil => rfl
  | cons l ls ih =>
    by_cases hk : stintKey l = some k
    · have hv : (l.stint.isSome && l.compound.isSome) = true := by
        rcases l with ⟨ld, ln, lt, lst, lc, lp⟩
        cases lst <;> cases lc <;> simp_all [stintKey]
      simp [List.filter_cons, hv, hk, ih]
    · by_cases hv : (l.stint.isSome && l.compound.isSome) = true <;>
        simp [List.filter_cons, hv, hk, ih]

theorem groupNums_eq (laps : List Lap) (k : String × Nat × String) :
    ((laps.filter (fun l => l.stint.isSome && l.compound.isSome)).filter
        (fun l => stintKey l = some k)).map Lap.lapNumber =
      groupLapNumbers laps k.1 k.2.1 k.2.2 := by
  rw [filter_key_valid, groupLapNumbers]
  congr 1
  apply List.filter_congr
  intro l _
  rcases k with ⟨d, s, c⟩
  simp [stintKey_eq_some]

/-- Claim C4 counterexample: in `lap_time_chart`, a driver with one lap whose
lapTime is absent (NaT) and one lap with lapTime present yields a series with
TWO points (the NaT lap is carried as a point with an absent lapTimeSeconds),
not exactly one point as the claim states: absent-lapTime laps are not
dropped. -/
theorem C4_counterexample :
    lap_time_chart_series "X"
        [("gp", [⟨"X", 1, none, none, none, none⟩,
                 ⟨"X", 2, some 80000000, none, none, none⟩])] =
      [⟨"gp", 1, none⟩, ⟨"gp", 2, some 80⟩] ∧
    (lap_time_chart_series "X"
        [("gp", [⟨"X", 1, none, none, none, none⟩,
                 ⟨"X", 2, some 80000000, none, none, none⟩])]).length ≠ 1 :=
  ⟨by decide, by decide⟩

/-- Claim C4 (amended): the lap-time series builder keeps laps whose lapTime
is absent as points with an absent (null) lapTimeSeconds — never zero-filled —
so the series has exactly one point per lap of the driver (two points for one
missing plus one present lap); and when no lap survives the driver filter the
builder returns the explicitly empty series rather than an error. -/
theorem C4_null_points (drv : String) (raceLaps : List (String × List Lap)) :
    ((∀ p ∈ raceLaps, pick_driver p.2 drv = []) →
        lap_time_chart_series drv raceLaps = []) ∧
    (lap_time_chart_series drv raceLaps).length =
      ((raceLaps.map (fun p => (pick_driver p.2 drv).length)).sum) ∧
    (∀ (gp : String) (l : Lap), l.driver = drv → l.lapTime = none →
        lap_time_chart_series drv [(gp, [l])] = [⟨gp, l.lapNumber, none⟩]) := by
  refine ⟨?_, ?_, ?_⟩
  · intro h
    simp only [lap_time_chart_series, List.flatten_eq_nil_iff]
    intro xs hxs
    rcases List.mem_map.mp hxs with ⟨p, hp, rfl⟩
    simp [lapTimeRows, h p hp]
  · rw [lap_time_chart_series, List.length_flatten, List.map_map]
    congr 1
    apply List.map_congr_left
    intro p _
    simp [lapTimeRows]
  · intro gp l h1 h2
    simp [lap_time_chart_series, lapTimeRows, pick_driver, List.filter_cons,
      h1, h2]

/-- Witness for C4_null_points at concrete inputs. -/
theorem C4_null_points_witness :
    lap_time_chart_series "X" [("gp", [])] = [] ∧
    lap_time_chart_series "X" [("gp", [⟨"X", 1, none, none, none, none⟩])] =
      [⟨"gp", 1, none⟩] :=
  ⟨(C4_null_points "X" [("gp", [])]).1 (by decide),
   (C4_null_points "X" [("gp", [⟨"X", 1, none, none, none, none⟩])]).2.2 "gp"
     ⟨"X", 1, none, none, none, none⟩ rfl rfl⟩

/-- Claim C6: the stint builder groups laps by (driver, stint, compound),
excludes entirely any lap whose stint or compound is absent, and each produced
group has startLap the minimum lapNumber of the group and endLap the maximum
lapNumber plus one; the laps {driver=X, stint=1, compound=soft,
lapNumber=[3,4,5]} produce the single group with startLap=3 and endLap=6. -/
theorem C6_stint_ranges :
    (∀ laps : List Lap,
        stint_chart_ranges laps =
          stint_chart_ranges
            (laps.filter (fun l => l.stint.isSome && l.compound.isSome))) ∧
    (∀ (laps : List Lap) (g : StintRange), g ∈ stint_chart_ranges laps →
        groupLapNumbers laps g.driver g.stint g.compound ≠ [] ∧
        g.startLap ∈ groupLapNumbers laps g.driver g.stint g.compound ∧
        (∀ n ∈ groupLapNumbers laps g.driver g.stint g.compound,
            g.startLap ≤ n) ∧
        g.endLap - 1 ∈ groupLapNumbers laps g.driver g.stint g.compound ∧
        (∀ n ∈ groupLapNumbers laps g.driver g.stint g.compound,
            n ≤ g.endLap - 1)) ∧
    stint_chart_ranges
        [⟨"X", 3, some 83000000, some 1, some "soft", none⟩,
         ⟨"X", 4, some 84000000, some 1, some "soft", none⟩,
         ⟨"X", 5, some 85000000, some 1, some "soft", none⟩] =
      [⟨"X", 1, "soft", 3, 6⟩] := by
  refine ⟨?_, ?_, by decide⟩
  · intro laps
    simp only [stint_chart_ranges, filter_idem]
  · intro laps g hg
    simp only [stint_chart_ranges] at hg
    rcases List.mem_map.mp hg with ⟨k, hk, rfl⟩
    have hnums := groupNums_eq laps k
    have hmem : ∃ l, l ∈ (laps.filter
        (fun l => l.stint.isSome && l.compound.isSome)).filter
        (fun l => stintKey l = some k) := by
      rcases List.mem_filterMap.mp (List.mem_dedup.mp hk) with ⟨l, hl, hlk⟩
      exact ⟨l, List.mem_filter.mpr ⟨hl, by simp [hlk]⟩⟩
    rcases hmem with ⟨l, hl⟩
    have hne : groupLapNumbers laps k.1 k.2.1 k.2.2 ≠ [] := by
      rw [← hnums]
      exact List.ne_nil_of_mem (List.mem_map_of_mem Lap.lapNumber hl)
    refine ⟨hne, ?_, ?_, ?_, ?_⟩
    · rw [← hnums]
      exact listMin_mem _ (by rw [hnums]; exact hne)
    · intro n hn
      rw [← hnums] at hn
      exact listMin_le _ n hn
    · show listMax _ + 1 - 1 ∈ _
      rw [Nat.add_sub_cancel, ← hnums]
      exact listMax_mem _ (by rw [hnums]; exact hne)
    · intro n hn
      have hn2 : n ∈ groupLapNumbers laps k.1 k.2.1 k.2.2 := hn
      rw [← hnums] at hn2
      show n ≤ listMax _ + 1 - 1
      rw [Nat.add_sub_cancel]
      exact le_listMax _ n hn2

/-- Witness for C6_stint_ranges: the group-shape facts applied to the concrete
three-lap stint. -/
theorem C6_stint_ranges_witness :
    (⟨"X", 1, "soft", 3, 6⟩ : StintRange) ∈ stint_chart_ranges
        [⟨"X", 3, some 83000000, some 1, some "soft", none⟩,
         ⟨"X", 4, some 84000000, some 1, some "soft", none⟩,
         ⟨"X", 5, some 85000000, some 1, some "soft", none⟩] ∧
    (3 : Nat) ∈ groupLapNumbers
        [⟨"X", 3, some 83000000, some 1, some "soft", none⟩,
         ⟨"X", 4, some 84000000, some 1, some "soft", none⟩,
         ⟨"X", 5, some 85000000, some 1, some "soft", none⟩] "X" 1 "soft" :=
  ⟨by decide,
   (C6_stint_ranges.2.1
      [⟨"X", 3, some 83000000, some 1, some "soft", none⟩,
       ⟨"X", 4, some 84000000, some 1, some "soft", none⟩,
       ⟨"X", 5, some 85000000, some 1, some "soft", none⟩]
      ⟨"X", 1, "soft", 3, 6⟩ (by decide)).2.1⟩

theorem fold_fastest_mem (ls : List Lap) (a : Lap) :
    ls.foldl (fun a b => if b.lapTime.getD 0 < a.lapTime.getD 0 then b else a) a
        = a ∨
      ls.foldl (fun a b => if b.lapTime.getD 0 < a.lapTime.getD 0 then b else a) a
        ∈ ls := by
  induction ls generalizing a with
  | nil => left; rfl
  | cons x xs ih =>
    rcases ih (if x.lapTime.getD 0 < a.lapTime.getD 0 then x else a) with h | h
    · rw [List.foldl_cons, h]
      by_cases hx : x.lapTime.getD 0 < a.lapTime.getD 0
      · right; simp [hx]
      · left; simp [hx]
    · right; exact List.mem_cons_of_mem x h

theorem fold_fastest_le (ls : List Lap) (a : Lap) :
    (ls.foldl (fun a b => if b.lapTime.getD 0 < a.lapTime.getD 0 then b else a)
        a).lapTime.getD 0 ≤ a.lapTime.getD 0 := by
  induction ls generalizing a with
  | nil => simp
  | cons x xs ih =>
    rw [List.foldl_cons]
    by_cases hx : x.lapTime.getD 0 < a.lapTime.getD 0
    · calc _ ≤ (if x.lapTime.getD 0 < a.lapTime.getD 0 then x
            else a).lapTime.getD 0 := ih _
        _ ≤ a.lapTime.getD 0 := by simp [hx]; exact le_of_lt hx
    · calc _ ≤ (if x.lapTime.getD 0 < a.lapTime.getD 0 then x
            else a).lapTime.getD 0 := ih _
        _ ≤ a.lapTime.getD 0 := by simp [hx]

theorem fold_fastest_le_mem (ls : List Lap) (a l : Lap) (hl : l ∈ ls) :
    (ls.foldl (fun a b => if b.lapTime.getD 0 < a.lapTime.getD 0 then b else a)
        a).lapTime.getD 0 ≤ l.lapTime.getD 0 := by
  induction ls generalizing a with
  | nil => cases hl
  | cons x xs ih =>
    rw [List.foldl_cons]
    rcases List.mem_cons.mp hl with rfl | h
    · calc _ ≤ (if l.lapTime.getD 0 < a.lapTime.getD 0 then l
            else a).lapTime.getD 0 := fold_fastest_le xs _
        _ ≤ l.lapTime.getD 0 := by
            by_cases hx : l.lapTime.getD 0 < a.lapTime.getD 0 <;> simp [hx]
            exact le_of_not_lt hx
    · exact ih _ h

/-- Claim C5: the telemetry comparison selects each driver's fastest lap by
minimum lapTime (among that driver's laps carrying a lapTime), and if either
driver has no laps in the session it returns three explicitly-empty
comparison figures without raising. -/
theorem C5_telemetry_compare :
    (∀ (sess : TSession) (d1 d2 : String),
        pick_driver sess.laps d1 = [] ∨ pick_driver sess.laps d2 = [] →
          compare_fastest_lap_telemetry sess d1 d2 = ([], [], [])) ∧
    (∀ (laps : List Lap) (f : Lap), pick_fastest laps = some f →
        f ∈ laps ∧ f.lapTime.isSome ∧
        ∀ l ∈ laps, ∀ t u : Int, f.lapTime = some t → l.lapTime = some u →
          t ≤ u) := by
  constructor
  · intro sess d1 d2 h
    rcases h with h | h
    · have h1 : pick_fastest (pick_driver sess.laps d1) = none := by
        rw [h]; rfl
      cases h2 : pick_fastest (pick_driver sess.laps d2) <;>
        simp [compare_fastest_lap_telemetry, h1, h2]
    · have h2 : pick_fastest (pick_driver sess.laps d2) = none := by
        rw [h]; rfl
      cases h1 : pick_fastest (pick_driver sess.laps d1) <;>
        simp [compare_fastest_lap_telemetry, h1, h2]
  · intro laps f hf
    rw [pick_fastest] at hf
    cases hfl : laps.filter (fun l => l.lapTime.isSome) with
    | nil => rw [hfl] at hf; exact absurd hf (by simp)
    | cons l ls =>
      rw [hfl] at hf
      have hfold : ls.foldl
          (fun a b => if b.lapTime.getD 0 < a.lapTime.getD 0 then b else a) l
          = f := by
        exact Option.some.inj hf
      have hfmem : f ∈ l :: ls := by
        rw [← hfold]
        rcases fold_fastest_mem ls l with h | h
        · rw [h]; exact List.mem_cons_self l ls
        · exact List.mem_cons_of_mem l h
      have hfilter : f ∈ laps.filter (fun l => l.lapTime.isSome) := by
        rw [hfl]; exact hfmem
      refine ⟨List.mem_of_mem_filter hfilter, ?_, ?_⟩
      · have := List.of_mem_filter hfilter
        simpa using this
      · intro l0 hl0 t u ht hu
        have hl0f : l0 ∈ l :: ls := by
          rw [← hfl]
          exact List.mem_filter.mpr ⟨hl0, by simp [hu]⟩
        have hle : f.lapTime.getD 0 ≤ l0.lapTime.getD 0 := by
          rw [← hfold]
          rcases List.mem_cons.mp hl0f with rfl | h
          · exact fold_fastest_le ls l0
          · exact fold_fastest_le_mem ls l l0 h
        rw [ht, hu] at hle
        simpa using hle

/-- Witness for C5_telemetry_compare: a session where driver B has no laps
yields the three empty figures, and the fastest-lap selection on a concrete
lap list picks a member of the list. -/
theorem C5_telemetry_compare_witness :
    compare_fastest_lap_telemetry
        ⟨[⟨"A", 1, some 90000000, none, none, none⟩], fun _ => []⟩ "A" "B" =
      ([], [], []) ∧
    (⟨"A", 2, some 80000000, none, none, none⟩ : Lap) ∈
      [⟨"A", 1, some 90000000, none, none, none⟩,
       ⟨"A", 2, some 80000000, none, none, none⟩] :=
  ⟨C5_telemetry_compare.1
      ⟨[⟨"A", 1, some 90000000, none, none, none⟩], fun _ => []⟩ "A" "B"
      (Or.inr (by decide)),
   (C5_telemetry_compare.2
      [⟨"A", 1, some 90000000, none, none, none⟩,
       ⟨"A", 2, some 80000000, none, none, none⟩]
      ⟨"A", 2, some 80000000, none, none, none⟩ (by decide)).1⟩

theorem dictGet_dictSet (d : List (String × Rat)) (k : String) (v : Rat)
    (t : String) :
    dictGet (dictSet d k v) t = if k = t then v else dictGet d t := by
  induction d with
  | nil => simp [dictSet, dictGet]
  | cons p rest ih =>
    by_cases hpk : p.1 = k
    · by_cases hkt : k = t <;> simp [dictSet, dictGet, hpk, hkt]
    · by_cases hpt : p.1 = t
      · have hkt : ¬ k = t := fun h => hpk (h ▸ hpt)
        have htk : ¬ t = k := fun h => hkt h.symm
        simp [dictSet, dictGet, hpk, hpt, hkt, htk]
      · simp [dictSet, dictGet, hpk, hpt, ih]

theorem dictGet_foldl_addTeam (ps : List (String × Rat))
    (d : List (String × Rat)) (t : String) :
    dictGet (ps.foldl addTeam d) t =
      dictGet d t + ((ps.filter (fun p => p.1 = t)).map Prod.snd).sum := by
  induction ps generalizing d with
  | nil => simp
  | cons p ps ih =>
    rw [List.foldl_cons, ih]
    by_cases hpt : p.1 = t
    · simp [List.filter_cons, addTeam, dictGet_dictSet, hpt]
      ring
    · simp [List.filter_cons, addTeam, dictGet_dictSet, hpt]

theorem nodup_filter_eq (l : List String) (hl : l.Nodup) (t : String) :
    l.filter (fun x => x = t) = if t ∈ l then [t] else [] := by
  induction l with
  | nil => simp
  | cons x xs ih =>
    rcases List.nodup_cons.mp hl with ⟨hx, hxs⟩
    by_cases hxt : x = t
    · subst hxt
      simp [List.filter_cons, hx, ih hxs]
    · have : ¬ t = x := fun h => hxt h.symm
      simp [List.filter_cons, hxt, ih hxs, List.mem_cons, this]

theorem groupSum_filter_sum (rows : List DriverResult) (t : String) :
    (((groupSum rows).filter (fun p => p.1 = t)).map Prod.snd).sum =
      ((rows.filter (fun r => r.teamName = t)).map DriverResult.points).sum := by
  rw [groupSum, List.filter_map]
  have hcongr : ((rows.map DriverResult.teamName).dedup).filter
        ((fun p : String × Rat => decide (p.1 = t)) ∘ (fun u =>
          (u, ((rows.filter (fun r => r.teamName = u)).map
            DriverResult.points).sum))) =
      ((rows.map DriverResult.teamName).dedup).filter (fun x => x = t) := by
    apply List.filter_congr
    intro a _
    simp [Function.comp]
  rw [hcongr, nodup_filter_eq _ (List.nodup_dedup _) t]
  by_cases ht : t ∈ rows.map DriverResult.teamName
  · simp [List.mem_dedup, ht]
  · have hempty : rows.filter (fun r => r.teamName = t) = [] := by
      rw [List.filter_eq_nil_iff]
      intro r hr
      simp only [decide_eq_true_eq]
      intro hrt
      exact ht (hrt ▸ List.mem_map_of_mem DriverResult.teamName hr)
    simp [List.mem_dedup, ht, hempty]

theorem dictGet_team_points (sessions : List RSession) (t : String) :
    dictGet (team_points sessions) t =
      (sessions.map (sessionTeamPoints t)).sum := by
  have h : ∀ d, dictGet (sessions.foldl accumSession d) t =
      dictGet d t + (sessions.map (sessionTeamPoints t)).sum := by
    induction sessions with
    | nil => intro d; simp
    | cons s ss ih =>
      intro d
      rw [List.foldl_cons, ih]
      cases hres : s.results with
      | none =>
        simp [accumSession, hres, sessionTeamPoints]
      | some rows =>
        simp only [accumSession, hres, List.map_cons, List.sum_cons,
          sessionTeamPoints]
        rw [dictGet_foldl_addTeam, groupSum_filter_sum]
        ring
  have h0 := h []
  simpa [team_points, dictGet] using h0

/-- Claim C7: the team-points aggregate of `team_points_chart` sums points
grouped by team name within each session and accumulates the per-team sums
additively across sessions, the resulting value per team is the same for
every permutation of the input session order, and two sessions giving team
Red 10 and 15 points yield Red mapped to 25. -/
theorem C7_team_points :
    (∀ (sessions : List RSession) (t : String),
        dictGet (team_points sessions) t =
          (sessions.map (sessionTeamPoints t)).sum) ∧
    (∀ s1 s2 : List RSession, s1.Perm s2 → ∀ t : String,
        dictGet (team_points s1) t = dictGet (team_points s2) t) ∧
    team_points [⟨some [⟨"A", "Red", none, none, 10⟩]⟩,
                 ⟨some [⟨"B", "Red", none, none, 15⟩]⟩] = [("Red", 25)] := by
  refine ⟨dictGet_team_points, ?_, by
    norm_num [team_points, accumSession, groupSum, addTeam, dictGet, dictSet]⟩
  intro s1 s2 hperm t
  rw [dictGet_team_points, dictGet_team_points]
  exact List.Perm.sum_eq (hperm.map (sessionTeamPoints t))

/-- Witness for C7_team_points: swapping the two concrete sessions leaves the
total of team Red unchanged. -/
theorem C7_team_points_witness :
    dictGet (team_points [⟨some [⟨"A", "Red", none, none, 10⟩]⟩,
                          ⟨some [⟨"B", "Red", none, none, 15⟩]⟩]) "Red" =
      dictGet (team_points [⟨some [⟨"B", "Red", none, none, 15⟩]⟩,
                            ⟨some [⟨"A", "Red", none, none, 10⟩]⟩]) "Red" :=
  C7_team_points.2.1
    [⟨some [⟨"A", "Red", none, none, 10⟩]⟩,
     ⟨some [⟨"B", "Red", none, none, 15⟩]⟩]
    [⟨some [⟨"B", "Red", none, none, 15⟩]⟩,
     ⟨some [⟨"A", "Red", none, none, 10⟩]⟩]
    (List.Perm.swap _ _ _) "Red"

theorem poolCollect_slots {K S : Type} (keys : List K) (f : K → S)
    (order : List Nat) (acc : Nat → Option S) (j : Nat) :
    (order.foldl
        (fun acc i => fun j => if j = i then runTask keys f i else acc j)
        acc) j =
      if j ∈ order then runTask keys f j else acc j := by
  induction order generalizing acc with
  | nil => simp
  | cons i rest ih =>
    rw [List.foldl_cons, ih]
    by_cases hjr : j ∈ rest
    · simp [hjr, List.mem_cons]
    · by_cases hji : j = i
      · subst hji
        simp [hjr, List.mem_cons]
      · simp [hjr, hji, List.mem_cons]

/-- Claim C8: the result sequence of the pool fetch is positionally aligned
with the input keys — slot i holds the result of key i — for every completion
order of the concurrent tasks. -/
theorem C8_positional_alignment {K S : Type} (keys : List K) (f : K → S)
    (order : List Nat) (h : order.Perm (List.range keys.length)) :
    poolCollect keys f order = keys.map (fun k => some (f k)) := by
  apply List.ext_getElem
  · simp [poolCollect]
  · intro i h1 h2
    have hi : i < keys.length := by
      simpa [poolCollect] using h1
    have himem : i ∈ order := h.mem_iff.mpr (List.mem_range.mpr hi)
    simp only [poolCollect, List.getElem_map, List.getElem_range]
    rw [poolCollect_slots keys f order _ i]
    simp [himem, runTask, List.getElem?_eq_getElem hi]

/-- Witness for C8_positional_alignment: three tasks completing in the order
2, 0, 1 still fill the slots in input order. -/
theorem C8_positional_alignment_witness :
    poolCollect [10, 20, 30] (fun k => k + 1) [2, 0, 1] =
      [some 11, some 21, some 31] :=
  (C8_positional_alignment [10, 20, 30] (fun k => k + 1) [2, 0, 1]
    (by decide)).trans (by decide)

/-- Claim C2 counterexample: in `lap_time_chart` (and `team_points_chart`) the
multi-session fetch has no per-key error handling: with keys [A, B, C] where
only B's provider call fails, the whole call aborts with the provider error —
A's and C's completed results are not returned and no per-position None is
produced, contradicting the claim for these fetch sites. -/
theorem C2_counterexample :
    chart_fetch
        (fun g => if g = "B" then (Except.error ProviderErr.network) else .ok g)
        ["A", "B", "C"] = .error .network ∧
    (fun g => if g = "B" then (Except.error ProviderErr.network) else .ok g)
        "A" = .ok "A" ∧
    (fun g => if g = "B" then (Except.error ProviderErr.network) else .ok g)
        "C" = .ok "C" :=
  ⟨rfl, rfl, rfl⟩

/-- Claim C2 (amended): only `lap_time_boxplot`'s fetch has the
partial-failure property — a failing key yields None at exactly its position
and every other key's result is still returned at its own position; in
`lap_time_chart` and `team_points_chart` a single provider failure propagates
out of the fetch and aborts the whole call. -/
theorem C2_partial_failure :
    (∀ {S : Type} (provider : Int → Except ProviderErr S) (years : List Int),
        (boxplot_fetch provider years).length = years.length ∧
        (∀ (i : Nat) (hi : i < years.length) (e : ProviderErr),
            provider years[i] = .error e →
              (boxplot_fetch provider years)[i]? = some none) ∧
        (∀ (i : Nat) (hi : i < years.length) (s : S),
            provider years[i] = .ok s →
              (boxplot_fetch provider years)[i]? = some (some s))) ∧
    (∀ {K S : Type} (provider : K → Except ProviderErr S) (gps : List K)
        (g : K) (e : ProviderErr), g ∈ gps → provider g = .error e →
          ∃ e2, chart_fetch provider gps = .error e2) := by
  constructor
  · intro S provider years
    refine ⟨List.length_map years _, ?_, ?_⟩
    · intro i hi e he
      rw [boxplot_fetch, List.getElem?_map, List.getElem?_eq_getElem hi]
      simp [boxplot_load, he, Except.toOption]
    · intro i hi s hs
      rw [boxplot_fetch, List.getElem?_map, List.getElem?_eq_getElem hi]
      simp [boxplot_load, hs, Except.toOption]
  · intro K S provider gps g e hg he
    induction gps with
    | nil => cases hg
    | cons x xs ih =>
      rcases List.mem_cons.mp hg with rfl | h
      · exact ⟨e, by rw [chart_fetch, he]⟩
      · rw [chart_fetch]
        cases hx : provider x with
        | error e2 => exact ⟨e2, rfl⟩
        | ok s =>
          rcases ih h with ⟨e2, h2⟩
          rw [h2]
          exact ⟨e2, rfl⟩

/-- Witness for C2_partial_failure: the boxplot fetch of years [1, 2, 3] with
only year 2 failing yields None exactly at position 1, and the chart fetch of
[A, B, C] with only B failing aborts with an error. -/
theorem C2_partial_failure_witness :
    (boxplot_fetch (fun y => if y = 2 then .error .network else .ok y)
        [1, 2, 3])[1]? = some none ∧
    ∃ e2, chart_fetch
        (fun g => if g = "B" then (Except.error ProviderErr.network) else .ok g)
        ["A", "B", "C"] = .error e2 :=
  ⟨(C2_partial_failure.1 (fun y => if y = 2 then .error .network else .ok y)
      [1, 2, 3]).2.1 1 (by decide) .network rfl,
   C2_partial_failure.2
      (fun g => if g = "B" then (Except.error ProviderErr.network) else .ok g)
      ["A", "B", "C"] "B" .network (by decide) rfl⟩

/-- Claim C3: when the provider load for an uncached key fails, no cache entry
is created (the cache is unchanged), the call itself fails with the provider
error after exactly one provider call, and a subsequent call with the same
key against that unchanged cache performs a fresh provider fetch — which can
then succeed and populate the cache — rather than returning a cached failure. -/
theorem C3_no_cache_on_failure {K S : Type} [DecidableEq K]
    (provider retryProvider : K → Except ProviderErr S) (cache : List (K × S))
    (k : K) (e : ProviderErr) (s : S)
    (hcold : cacheLookup cache k = none) (hfail : provider k = .error e) :
    load_session_m provider cache k = (.error e, cache, 1) ∧
    (retryProvider k = .ok s →
        load_session_m retryProvider cache k =
          (.ok s, cacheInsert cache k s, 1)) := by
  constructor
  · rw [load_session_m, hcold, hfail]
  · intro hok
    rw [load_session_m, hcold, hok]

/-- Witness for C3_no_cache_on_failure: a failing load on the empty cache
returns the error and leaves the cache empty; the retry with a working
provider fetches afresh and succeeds. -/
theorem C3_no_cache_on_failure_witness :
    load_session_m (fun _ : Nat => (Except.error ProviderErr.network :
        Except ProviderErr Nat)) [] 7 = (.error .network, [], 1) ∧
    load_session_m (fun _ : Nat => (Except.ok 42 : Except ProviderErr Nat))
        [] 7 = (.ok 42, [(7, 42)], 1) :=
  ⟨(C3_no_cache_on_failure (fun _ => .error .network) (fun _ => .ok 42)
      [] 7 .network 42 rfl rfl).1,
   (C3_no_cache_on_failure (fun _ => .error .network) (fun _ => .ok 42)
      [] 7 .network 42 rfl rfl).2 rfl⟩

theorem step_fetch_bound (s : CState) (who : Bool)
    (h : s.fetches + canFetch s.t1 + canFetch s.t2 ≤ 2) :
    (step s who).fetches + canFetch (step s who).t1 +
        canFetch (step s who).t2 ≤ 2 := by
  rcases s with ⟨c, fch, t1, t2⟩
  cases who <;> cases t1 <;> cases t2 <;> cases c <;>
    simp_all [step, stepT, canFetch] <;> omega

theorem run_fetch_bound (sched : List Bool) : (run sched).fetches ≤ 2 := by
  have h : ∀ (l : List Bool) (s : CState),
      s.fetches + canFetch s.t1 + canFetch s.t2 ≤ 2 →
      (l.foldl step s).fetches + canFetch (l.foldl step s).t1 +
        canFetch (l.foldl step s).t2 ≤ 2 := by
    intro l
    induction l with
    | nil => intro s hs; exact hs
    | cons w ws ih =>
      intro s hs
      rw [List.foldl_cons]
      exact ih (step s w) (step_fetch_bound s w hs)
  have h2 := h sched ⟨none, 0, .start, .start⟩ (by simp [canFetch])
  rw [run]
  omega

theorem step_zero_fetch (s : CState) (who : Bool)
    (h : s.fetches = 0 → s.cache = none ∧ s.t1 = .start ∧ s.t2 = .start) :
    (step s who).fetches = 0 →
      (step s who).cache = none ∧ (step s who).t1 = .start ∧
        (step s who).t2 = .start := by
  rcases s with ⟨c, fch, t1, t2⟩
  cases who <;> cases t1 <;> cases t2 <;> cases c <;>
    simp_all [step, stepT]

theorem run_zero_fetch (sched : List Bool) : (run sched).fetches = 0 →
    (run sched).cache = none ∧ (run sched).t1 = .start ∧
      (run sched).t2 = .start := by
  have h : ∀ (l : List Bool) (s : CState),
      (s.fetches = 0 → s.cache = none ∧ s.t1 = .start ∧ s.t2 = .start) →
      ((l.foldl step s).fetches = 0 →
        (l.foldl step s).cache = none ∧ (l.foldl step s).t1 = .start ∧
          (l.foldl step s).t2 = .start) := by
    intro l
    induction l with
    | nil => intro s hs; exact hs
    | cons w ws ih =>
      intro s hs
      rw [List.foldl_cons]
      exact ih (step s w) (step_zero_fetch s w hs)
  exact h sched ⟨none, 0, .start, .start⟩ (by intro; exact ⟨rfl, rfl, rfl⟩)

/-- Claim C1 counterexample: the interleaving in which both callers look up
the cold `lru_cache` before either provider call returns performs TWO
provider fetches, and the two callers return DISTINCT Session instances —
`functools.lru_cache` gives no single-flight guarantee, contradicting the
claims of exactly one provider fetch and a shared instance.  The first
finisher's instance (id 0) stays cached: the second finisher finds the key
populated, skips the store, and still returns its own instance (id 1). -/
theorem C1_counterexample :
    run [true, false, true, false] =
      ⟨some 0, 2, .done 0, .done 1⟩ ∧
    (run [true, false, true, false]).fetches ≠ 1 ∧
    (run [true, false, true, false]).t1 ≠ (run [true, false, true, false]).t2 :=
  ⟨by decide, by decide, by decide⟩

/-- Claim C1 (amended): under concurrent cold-cache calls each caller performs
at most one provider fetch (so at most two fetches for two callers, and some
interleavings do perform two, returning distinct instances); at least one
fetch happens before any caller completes; and when the two calls are
serialized, exactly one provider fetch occurs and both callers receive the
same cached Session instance. -/
theorem C1_lru_cache_not_single_flight :
    (∀ sched : List Bool, (run sched).fetches ≤ 2) ∧
    (∀ (sched : List Bool) (r : Nat),
        (run sched).t1 = .done r ∨ (run sched).t2 = .done r →
          1 ≤ (run sched).fetches) ∧
    run [true, true, false] = ⟨some 0, 1, .done 0, .done 0⟩ := by
  refine ⟨run_fetch_bound, ?_, by decide⟩
  intro sched r hdone
  by_contra hlt
  have hz : (run sched).fetches = 0 := by omega
  rcases run_zero_fetch sched hz with ⟨_, h1, h2⟩
  rcases hdone with h | h
  · rw [h1] at h; cases h
  · rw [h2] at h; cases h

/-- Witness for C1_lru_cache_not_single_flight: in the serialized schedule the
first caller completed, so at least one fetch happened. -/
theorem C1_lru_cache_not_single_flight_witness :
    1 ≤ (run [true, true, false]).fetches :=
  C1_lru_cache_not_single_flight.2.1 [true, true, false] 0
    (Or.inl (by decide))

/-- Claim C9: the resolved profile's age equals
`(date(year, 12, 31) - dob).days // 365` in exact date arithmetic whenever a
date of birth is resolved — from the ergast service, or, failing that, from
the static fallback table entry of the upper-cased abbreviation — and the age
is absent when no source resolves a date of birth. -/
theorem C9_age_formula (src : Sources) (year : Int) (driver : String) :
    (∀ d : Date, (src.ergast driver).bind ErgastDriver.dateOfBirth = some d →
        (driver_metadata src year driver).age = some (pythonAge year d)) ∧
    ((src.ergast driver).bind ErgastDriver.dateOfBirth = none →
        ∀ fb, fbLookup FALLBACK_DRIVERS (strUpper driver) = some fb →
          (driver_metadata src year driver).age =
            some (pythonAge year fb.dob)) ∧
    ((src.ergast driver).bind ErgastDriver.dateOfBirth = none →
        fbLookup FALLBACK_DRIVERS (strUpper driver) = none →
          (driver_metadata src year driver).age = none) := by
  refine ⟨?_, ?_, ?_⟩
  · intro d hd
    rw [driver_metadata]
    cases hfb : fbLookup FALLBACK_DRIVERS (strUpper driver) with
    | none => simp [applyFallback, resolvedAge, hd]
    | some fb => simp [applyFallback, resolvedAge, hd, fillField]
  · intro hd fb hfb
    rw [driver_metadata, hfb]
    simp [applyFallback, resolvedAge, hd, fillField]
  · intro hd hfb
    rw [driver_metadata, hfb]
    simp [applyFallback, resolvedAge, hd]

/-- Witness for C9_age_formula: an ergast dob of 1997-09-30 gives age 24 for
season 2021, and with no ergast dob and an abbreviation outside the fallback
table the age is absent. -/
theorem C9_age_formula_witness :
    (driver_metadata
        ⟨fun _ => none,
         fun _ => some ⟨some "Dutch", some ⟨1997, 9, 30⟩, "Max", "Verstappen"⟩,
         fun _ => none⟩ 2021 "XYZ").age = some 24 ∧
    (driver_metadata ⟨fun _ => none, fun _ => none, fun _ => none⟩
        2021 "XYZ").age = none :=
  ⟨((C9_age_formula
      ⟨fun _ => none,
       fun _ => some ⟨some "Dutch", some ⟨1997, 9, 30⟩, "Max", "Verstappen"⟩,
       fun _ => none⟩ 2021 "XYZ").1 ⟨1997, 9, 30⟩ rfl).trans (by decide),
   (C9_age_formula ⟨fun _ => none, fun _ => none, fun _ => none⟩
      2021 "XYZ").2.2 rfl (by decide)⟩

/-- Claim C10: when every external source yields no data, driver metadata
resolution is case-insensitive in the abbreviation — two abbreviations with
the same upper-casing resolve to equal profiles, because the static fallback
table is keyed by the upper-cased abbreviation. -/
theorem C10_fallback_case_insensitive (src : Sources) (year : Int)
    (a b : String) (hpa : src.primary a = none) (hpb : src.primary b = none)
    (hea : src.ergast a = none) (heb : src.ergast b = none)
    (hab : strUpper a = strUpper b) :
    driver_metadata src year a = driver_metadata src year b := by
  rw [driver_metadata, driver_metadata, hab]
  simp [resolveName, resolveImage, resolvedAge, hpa, hpb, hea, heb]

/-- Witness for C10_fallback_case_insensitive: with all sources failing,
"ver" and "VER" resolve to the same profile, which carries the fallback
table's Max Verstappen data. -/
theorem C10_fallback_case_insensitive_witness :
    driver_metadata ⟨fun _ => none, fun _ => none, fun _ => none⟩ 2023 "ver" =
      driver_metadata ⟨fun _ => none, fun _ => none, fun _ => none⟩
        2023 "VER" ∧
    (driver_metadata ⟨fun _ => none, fun _ => none, fun _ => none⟩
        2023 "ver").name = some "Max Verstappen" :=
  ⟨C10_fallback_case_insensitive
      ⟨fun _ => none, fun _ => none, fun _ => none⟩ 2023 "ver" "VER"
      rfl rfl rfl rfl (by decide),
   by decide⟩
